import Mathlib

/-!
Verification of the security and consistency core of a multi-tenant backend
platform, shallowly embedded from the Python source under src/backend: the
session revocation engine, team/role authorization, idempotency engine,
payment state machine with audit logging, webhook processing with signature
verification, sliding-window rate limiting and the circuit breaker.

Modelling conventions:
  - timestamps are integers (unix seconds); Python float time is modelled
    over Int, which is exact for the properties stated here;
  - SHA-256 and HMAC-SHA256 are abstracted as function parameters, since no
    claim depends on the internals of the hash;
  - each `with get_cursor()` / `with transaction()` block in the source is
    one committed transaction; a raise inside the block rolls it back;
  - database tables are lists of typed rows; `fetchone` after a filtered
    query is `List.find?`; `rowcount` of an UPDATE is `List.countP`;
  - fallible operations return `Except`, mirroring raised exception classes.
-/

/-- Helper: mapping a function that fixes every element of a list leaves the
list unchanged. -/
theorem listMapFixed {α : Type} (l : List α) (f : α → α)
    (h : ∀ a ∈ l, f a = a) : l.map f = l := by
  induction l with
  | nil => rfl
  | cons a t ih =>
      simp only [List.map_cons, List.cons.injEq]
      exact ⟨h a (by simp), ih (fun b hb => h b (by simp [hb]))⟩

/-- Decidable equality on `Except`, used to evaluate outcomes on concrete
inputs. -/
instance exceptDecidableEq {ε α : Type} [DecidableEq ε] [DecidableEq α] :
    DecidableEq (Except ε α)
  | .error a, .error b =>
      if h : a = b then .isTrue (by rw [h])
      else .isFalse (fun hh => h (by cases hh; rfl))
  | .error _, .ok _ => .isFalse (fun hh => Except.noConfusion hh)
  | .ok _, .error _ => .isFalse (fun hh => Except.noConfusion hh)
  | .ok a, .ok b =>
      if h : a = b then .isTrue (by rw [h])
      else .isFalse (fun hh => h (by cases hh; rfl))

/- ## Session store (src/backend/services/session.py) -/

/-- A row of the sessions table, mirroring the dataclass `Session`. -/
structure Session where
  id : String
  userId : String
  tokenHash : String
  teamId : Option String
  ipAddress : Option String
  userAgent : Option String
  createdAt : Int
  lastUsedAt : Int
  revokedAt : Option Int
  revocationReason : Option String
deriving Repr, DecidableEq

/-- Mirrors the property `Session.is_valid`: valid iff not revoked. -/
def Session.isValid (s : Session) : Bool :=
  s.revokedAt.isNone

/-- Python f-string rendering of an `Optional[str]` value. -/
def optionStr : Option String → String
  | some r => r
  | none => "None"

/-- Mirrors `get_session_by_token`: lookup by token hash, `fetchone`. -/
def getSessionByToken (db : List Session) (hashFn : String → String)
    (jwtToken : String) : Option Session :=
  db.find? (fun s => s.tokenHash == hashFn jwtToken)

/-- Mirrors `_update_session_activity`: set `last_used_at` for one session. -/
def updateSessionActivity (db : List Session) (sessionId : String)
    (now : Int) : List Session :=
  db.map (fun s => if s.id == sessionId then { s with lastUsedAt := now } else s)

/-- Mirrors `validate_session`. Returns the `(is_valid, session, error)`
triple together with the session table after the call (activity update on
the valid path only). -/
def validateSession (db : List Session) (hashFn : String → String)
    (jwtToken : String) (now : Int) :
    (Bool × Option Session × Option String) × List Session :=
  match getSessionByToken db hashFn jwtToken with
  | none => ((false, none, some "Session not found"), db)
  | some s =>
      if s.isValid then
        ((true, some s, none), updateSessionActivity db s.id now)
      else
        ((false, some s,
          some ("Session revoked: " ++ optionStr s.revocationReason)), db)

/-- The WHERE clause of the UPDATE in `revoke_all_user_sessions`: the
session belongs to the user, is not yet revoked, and is not the optionally
excluded session. -/
def revokeTouches (userId : String) (excludeSessionId : Option String)
    (s : Session) : Bool :=
  s.userId == userId && s.revokedAt.isNone &&
    (match excludeSessionId with
     | some ex => s.id != ex
     | none => true)

/-- Mirrors `revoke_all_user_sessions`: one UPDATE setting `revoked_at` and
`revocation_reason` on every unrevoked session of the user (optionally
excluding one session), returning the new table and the rowcount. -/
def revokeAllUserSessions (db : List Session) (userId : String)
    (reason : String) (excludeSessionId : Option String) (now : Int) :
    List Session × Nat :=
  (db.map (fun s =>
      if revokeTouches userId excludeSessionId s then
        { s with revokedAt := some now, revocationReason := some reason }
      else s),
   db.countP (revokeTouches userId excludeSessionId))

/-- C1: for every session whose `revoked_at` field is set, `validate_session`
on a token hashing to that session rejects: it returns invalid together with
the revocation reason, and the session table is left untouched, so the
session authorizes no operation. -/
theorem revoked_session_never_validates
    (db : List Session) (hashFn : String → String) (token : String)
    (now : Int) (s : Session)
    (hfind : getSessionByToken db hashFn token = some s)
    (hrev : s.revokedAt ≠ none) :
    validateSession db hashFn token now =
      ((false, some s,
        some ("Session revoked: " ++ optionStr s.revocationReason)), db) := by
  have hval : s.isValid = false := by
    unfold Session.isValid
    cases h : s.revokedAt with
    | none => exact absurd h hrev
    | some t => rfl
  unfold validateSession
  rw [hfind]
  simp [hval]

/-- Closed instance of C1 at a concrete revoked session. -/
theorem revoked_session_never_validates_w :
    validateSession
      [{ id := "s1", userId := "u1", tokenHash := "h1", teamId := none,
         ipAddress := none, userAgent := none, createdAt := 0,
         lastUsedAt := 0, revokedAt := some 5,
         revocationReason := some "manual_logout" }]
      (fun _ => "h1") "tok" 10 =
      ((false,
        some { id := "s1", userId := "u1", tokenHash := "h1", teamId := none,
               ipAddress := none, userAgent := none, createdAt := 0,
               lastUsedAt := 0, revokedAt := some 5,
               revocationReason := some "manual_logout" },
        some "Session revoked: manual_logout"),
       [{ id := "s1", userId := "u1", tokenHash := "h1", teamId := none,
          ipAddress := none, userAgent := none, createdAt := 0,
          lastUsedAt := 0, revokedAt := some 5,
          revocationReason := some "manual_logout" }]) :=
  revoked_session_never_validates _ _ _ _ _ (by decide) (by decide)

/- ## Idempotency engine (src/backend/services/idempotency.py) -/

/-- Status of an idempotency key, mirroring `IdempotencyStatus`. -/
inductive IdempotencyStatus
  | pending
  | completed
  | failed
deriving Repr, DecidableEq

/-- A row of the idempotency_keys table, mirroring `IdempotencyRecord`.
The cached response is kept as an opaque string. -/
structure IdempotencyRecord where
  id : String
  key : String
  userId : String
  requestHash : String
  response : Option String
  status : IdempotencyStatus
  createdAt : Int
  expiresAt : Int
  lockedAt : Option Int
deriving Repr, DecidableEq

/-- Exceptions raised by the idempotency engine. -/
inductive IdempotencyFailure
  | conflict
  | locked
deriving Repr, DecidableEq

/-- The lookup performed by `check_idempotency`: row for `(key, user_id)`
with `expires_at > now`, via `fetchone`. -/
def findIdempotencyRecord (db : List IdempotencyRecord) (key userId : String)
    (now : Int) : Option IdempotencyRecord :=
  db.find? (fun r => r.key == key && r.userId == userId && r.expiresAt > now)

/-- Mirrors `check_idempotency`. Returns `(should_process, cached_response)`
or the raised failure. -/
def checkIdempotency (db : List IdempotencyRecord) (key userId : String)
    (hashFn : List Char → String) (requestBody : List Char) (now : Int) :
    Except IdempotencyFailure (Bool × Option String) :=
  let requestHash := hashFn requestBody
  match findIdempotencyRecord db key userId now with
  | none => .ok (true, none)
  | some r =>
      if r.requestHash ≠ requestHash then
        .error .conflict
      else if r.status = .completed then
        .ok (false, r.response)
      else if r.status = .pending then
        .error .locked
      else
        .ok (true, none)

/-- The lookup used by the `ON CONFLICT (user_id, key)` clause of
`acquire_idempotency_lock`: the row with the same unique key, if any. -/
def findIdempotencyConflict (db : List IdempotencyRecord)
    (key userId : String) : Option IdempotencyRecord :=
  db.find? (fun r => r.key == key && r.userId == userId)

/-- Mirrors `acquire_idempotency_lock`: an INSERT of a pending row, with
`ON CONFLICT (user_id, key) DO UPDATE` that re-locks a failed row of matching
hash and leaves pending or completed rows unchanged, guarded by
`WHERE idempotency_keys.request_hash = excluded hash`; an empty RETURNING
set raises `IdempotencyConflict`. Returns the returned row id and the new
table. -/
def acquireIdempotencyLock (db : List IdempotencyRecord) (key userId : String)
    (hashFn : List Char → String) (requestBody : List Char) (now : Int)
    (newId : String) : Except IdempotencyFailure String × List IdempotencyRecord :=
  let requestHash := hashFn requestBody
  match findIdempotencyConflict db key userId with
  | none =>
      (.ok newId,
       db ++ [{ id := newId, key := key, userId := userId,
                requestHash := requestHash, response := none,
                status := .pending, createdAt := now,
                expiresAt := now + 48 * 3600, lockedAt := some now }])
  | some r =>
      if r.requestHash ≠ requestHash then
        (.error .conflict, db)
      else
        (.ok r.id,
         db.map (fun q =>
           if q.key == key && q.userId == userId then
             { q with
               lockedAt := if q.status = .failed then some now else q.lockedAt,
               status := if q.status = .failed then .pending else q.status }
           else q))

/-- C4: `check_idempotency` on the record found for `(user, key)` behaves by
cases: no unexpired record lets processing proceed; a stored hash differing
from the hash of the body raises IdempotencyConflict; a matching hash with
status PENDING raises IdempotencyLocked; a matching hash with status
COMPLETED returns the cached response without re-executing; and a matching
hash with status FAILED lets processing proceed. -/
theorem check_idempotency_cases (db : List IdempotencyRecord)
    (key userId : String) (hashFn : List Char → String)
    (body : List Char) (now : Int) :
    (findIdempotencyRecord db key userId now = none →
      checkIdempotency db key userId hashFn body now = .ok (true, none)) ∧
    (∀ r, findIdempotencyRecord db key userId now = some r →
      (r.requestHash ≠ hashFn body →
        checkIdempotency db key userId hashFn body now = .error .conflict) ∧
      (r.requestHash = hashFn body → r.status = .pending →
        checkIdempotency db key userId hashFn body now = .error .locked) ∧
      (r.requestHash = hashFn body → r.status = .completed →
        checkIdempotency db key userId hashFn body now = .ok (false, r.response)) ∧
      (r.requestHash = hashFn body → r.status = .failed →
        checkIdempotency db key userId hashFn body now = .ok (true, none))) := by
  constructor
  · intro hnone
    unfold checkIdempotency
    rw [hnone]
  · intro r hr
    refine ⟨?_, ?_, ?_, ?_⟩ <;> unfold checkIdempotency <;> rw [hr]
    · intro hne
      simp [hne]
    · intro heq hst
      simp [heq, hst]
    · intro heq hst
      simp [heq, hst]
    · intro heq hst
      simp [heq, hst]

/-- Closed instance of C4 on a concrete pending record. -/
theorem check_idempotency_cases_w :
    checkIdempotency
      [{ id := "r1", key := "k1", userId := "u1", requestHash := "hh",
         response := none, status := .pending, createdAt := 0,
         expiresAt := 100, lockedAt := some 0 }]
      "k1" "u1" (fun _ => "hh") [] 10 = .error .locked := by
  have h := check_idempotency_cases
    [{ id := "r1", key := "k1", userId := "u1", requestHash := "hh",
       response := none, status := .pending, createdAt := 0,
       expiresAt := 100, lockedAt := some 0 }]
    "k1" "u1" (fun _ => "hh") [] 10
  exact (h.2
    { id := "r1", key := "k1", userId := "u1", requestHash := "hh",
      response := none, status := .pending, createdAt := 0,
      expiresAt := 100, lockedAt := some 0 }
    (by decide)).2.1 (by decide) (by decide)

/-- C10: `acquire_idempotency_lock` on an existing PENDING record for
`(user, key)` whose stored hash matches the hash of the body succeeds,
returning the id of the existing record; the table is left unchanged, so the
record stays PENDING and no IdempotencyLocked is raised. -/
theorem acquire_lock_pending_succeeds (db : List IdempotencyRecord)
    (key userId : String) (hashFn : List Char → String) (body : List Char)
    (now : Int) (newId : String) (r : IdempotencyRecord)
    (hr : findIdempotencyConflict db key userId = some r)
    (huniq : ∀ q ∈ db, q.key = key → q.userId = userId → q = r)
    (hst : r.status = .pending)
    (hhash : r.requestHash = hashFn body) :
    acquireIdempotencyLock db key userId hashFn body now newId =
      (.ok r.id, db) := by
  have hmap : (db.map (fun q =>
      if q.key == key && q.userId == userId then
        { q with
          lockedAt := if q.status = .failed then some now else q.lockedAt,
          status := if q.status = .failed then .pending else q.status }
      else q)) = db := by
    apply listMapFixed
    intro q hq
    by_cases hc : (q.key == key && q.userId == userId) = true
    · have hkey : q.key = key := by
        have := (Bool.and_eq_true _ _).mp hc
        exact beq_iff_eq.mp this.1
      have huser : q.userId = userId := by
        have := (Bool.and_eq_true _ _).mp hc
        exact beq_iff_eq.mp this.2
      have hqr : q = r := huniq q hq hkey huser
      have hqs : q.status = .pending := by rw [hqr, hst]
      have h1 : (if q.status = IdempotencyStatus.failed then some now
          else q.lockedAt) = q.lockedAt := by
        rw [hqs]
        rfl
      have h2 : (if q.status = IdempotencyStatus.failed
          then IdempotencyStatus.pending else q.status) = q.status := by
        rw [hqs]
        rfl
      rw [if_pos hc, h1, h2]
    · rw [if_neg hc]
  simp only [acquireIdempotencyLock, hr]
  rw [if_neg (fun h : r.requestHash ≠ hashFn body => h hhash)]
  rw [hmap]

/-- Closed instance of C10 on a concrete pending record with matching hash. -/
theorem acquire_lock_pending_succeeds_w :
    acquireIdempotencyLock
      [{ id := "r1", key := "k1", userId := "u1", requestHash := "hh",
         response := none, status := .pending, createdAt := 0,
         expiresAt := 100, lockedAt := some 0 }]
      "k1" "u1" (fun _ => "hh") [] 10 "new" =
      (.ok "r1",
       [{ id := "r1", key := "k1", userId := "u1", requestHash := "hh",
          response := none, status := .pending, createdAt := 0,
          expiresAt := 100, lockedAt := some 0 }]) :=
  acquire_lock_pending_succeeds
    [{ id := "r1", key := "k1", userId := "u1", requestHash := "hh",
       response := none, status := .pending, createdAt := 0,
       expiresAt := 100, lockedAt := some 0 }]
    "k1" "u1" (fun _ => "hh") [] 10 "new"
    { id := "r1", key := "k1", userId := "u1", requestHash := "hh",
      response := none, status := .pending, createdAt := 0,
      expiresAt := 100, lockedAt := some 0 }
    (by decide) (by decide) (by decide) (by decide)

/- ## Authorization (src/backend/services/authorization.py) -/

/-- Team roles, mirroring `Role`. -/
inductive Role
  | owner
  | admin
  | member
  | viewer
deriving Repr, DecidableEq

/-- Mirrors `ROLE_HIERARCHY`: integer weights defining the hierarchy. -/
def roleHierarchy : Role → Nat
  | .owner => 4
  | .admin => 3
  | .member => 2
  | .viewer => 1

/-- A row of the team_memberships table, mirroring `TeamMembership`. -/
structure TeamMembershipRow where
  id : String
  teamId : String
  userId : String
  role : Role
  isActive : Bool
  createdAt : Int
deriving Repr, DecidableEq

/-- The part of a teams row read by the authorization join. -/
structure TeamRow where
  id : String
  deletedAt : Option Int
deriving Repr, DecidableEq

/-- Mirrors the dataclass `AuthorizationContext`. -/
structure AuthorizationContext where
  userId : String
  teamId : String
  role : Role
  isActive : Bool
deriving Repr, DecidableEq

/-- Mirrors `AuthorizationContext.has_role`. -/
def AuthorizationContext.hasRole (c : AuthorizationContext)
    (requiredRole : Role) : Bool :=
  if !c.isActive then false
  else decide (roleHierarchy c.role ≥ roleHierarchy requiredRole)

/-- Mirrors `AuthorizationContext.is_owner`. -/
def AuthorizationContext.isOwner (c : AuthorizationContext) : Bool :=
  c.role == .owner && c.isActive

/-- Mirrors `get_authorization_context`: a single join of memberships and
teams, filtered on the user, the team, and `teams.deleted_at IS NULL` only
(the SQL places no condition on `tm.is_active`), `fetchone`. -/
def getAuthorizationContext (memberships : List TeamMembershipRow)
    (teams : List TeamRow) (userId teamId : String) :
    Option AuthorizationContext :=
  match memberships.find? (fun m =>
      m.userId == userId && m.teamId == teamId &&
        teams.any (fun t => t.id == m.teamId && t.deletedAt.isNone)) with
  | none => none
  | some m =>
      some { userId := m.userId, teamId := m.teamId, role := m.role,
             isActive := m.isActive }

/-- Exceptions raised by the authorization engine. -/
inductive AuthorizationFailure
  | teamBoundary
  | roleError
deriving Repr, DecidableEq

/-- Mirrors `require_team_access`: `TeamBoundaryError` when there is no
context or the membership is inactive, `RoleError` when the role check
fails, the context otherwise. -/
def requireTeamAccess (memberships : List TeamMembershipRow)
    (teams : List TeamRow) (userId teamId : String)
    (requiredRole : Option Role) :
    Except AuthorizationFailure AuthorizationContext :=
  match getAuthorizationContext memberships teams userId teamId with
  | none => .error .teamBoundary
  | some context =>
      if !context.isActive then .error .teamBoundary
      else
        match requiredRole with
        | some rr =>
            if !context.hasRole rr then .error .roleError else .ok context
        | none => .ok context

/-- C6 counterexample: `get_authorization_context` does not filter the join
to active memberships. On a database holding an active team and an inactive
membership it returns a context with `is_active = false` instead of no row,
refuting the claim that a membership is returned only when it is active. -/
theorem get_authorization_context_inactive_ce :
    getAuthorizationContext
      [{ id := "m1", teamId := "t1", userId := "u1", role := .member,
         isActive := false, createdAt := 0 }]
      [{ id := "t1", deletedAt := none }] "u1" "t1" =
      some { userId := "u1", teamId := "t1", role := .member,
             isActive := false } ∧
    ¬ (∀ ctx, getAuthorizationContext
        [{ id := "m1", teamId := "t1", userId := "u1", role := .member,
           isActive := false, createdAt := 0 }]
        [{ id := "t1", deletedAt := none }] "u1" "t1" = some ctx →
        ctx.isActive = true) := by
  constructor
  · decide
  · intro h
    have := h { userId := "u1", teamId := "t1", role := .member,
                isActive := false } (by decide)
    simp at this

/-- C6 (amended): `get_authorization_context` performs a single join of
memberships and teams filtered to a non-deleted team only, so it can return
an inactive membership; `require_team_access` raises `TeamBoundaryError`
when no row exists or the membership is inactive, raises `RoleError` when
the membership role weight is below the required role, and otherwise
returns the membership context. -/
theorem require_team_access_characterization
    (memberships : List TeamMembershipRow) (teams : List TeamRow)
    (userId teamId : String) (requiredRole : Option Role) :
    (∀ ctx, getAuthorizationContext memberships teams userId teamId =
        some ctx →
      ∃ m, m ∈ memberships ∧ m.userId = userId ∧ m.teamId = teamId ∧
        (∃ t ∈ teams, t.id = m.teamId ∧ t.deletedAt = none) ∧
        ctx = { userId := m.userId, teamId := m.teamId, role := m.role,
                isActive := m.isActive }) ∧
    (getAuthorizationContext memberships teams userId teamId = none →
      requireTeamAccess memberships teams userId teamId requiredRole =
        .error .teamBoundary) ∧
    (∀ ctx, getAuthorizationContext memberships teams userId teamId =
        some ctx → ctx.isActive = false →
      requireTeamAccess memberships teams userId teamId requiredRole =
        .error .teamBoundary) ∧
    (∀ ctx rr, getAuthorizationContext memberships teams userId teamId =
        some ctx → ctx.isActive = true →
      roleHierarchy ctx.role < roleHierarchy rr →
      requireTeamAccess memberships teams userId teamId (some rr) =
        .error .roleError) ∧
    (∀ ctx rr, getAuthorizationContext memberships teams userId teamId =
        some ctx → ctx.isActive = true →
      roleHierarchy rr ≤ roleHierarchy ctx.role →
      requireTeamAccess memberships teams userId teamId (some rr) =
        .ok ctx) := by
  refine ⟨?_, ?_, ?_, ?_, ?_⟩
  · intro ctx h
    unfold getAuthorizationContext at h
    cases hfind : memberships.find? (fun m =>
        m.userId == userId && m.teamId == teamId &&
          teams.any (fun t => t.id == m.teamId && t.deletedAt.isNone)) with
    | none => rw [hfind] at h; exact absurd h (by simp)
    | some m =>
        rw [hfind] at h
        have hm : m ∈ memberships := List.mem_of_find?_eq_some hfind
        have hp := List.find?_some hfind
        simp only [Bool.and_eq_true, beq_iff_eq, List.any_eq_true,
          Option.isNone_iff_eq_none] at hp
        obtain ⟨⟨hu, ht⟩, t, htm, htid, hdel⟩ := hp
        refine ⟨m, hm, hu, ht, ⟨t, htm, htid, hdel⟩, ?_⟩
        simpa using h.symm
  · intro h
    unfold requireTeamAccess
    rw [h]
  · intro ctx h hact
    unfold requireTeamAccess
    rw [h]
    simp [hact]
  · intro ctx rr h hact hlt
    have hnr : ¬ (roleHierarchy rr ≤ roleHierarchy ctx.role) :=
      Nat.not_le.mpr hlt
    unfold requireTeamAccess
    rw [h]
    simp [hact, AuthorizationContext.hasRole, hnr]
  · intro ctx rr h hact hle
    unfold requireTeamAccess
    rw [h]
    simp [hact, AuthorizationContext.hasRole, hle]

/-- Closed instance of the C6 characterization: an active admin membership
with requirement MEMBER is granted. -/
theorem require_team_access_characterization_w :
    requireTeamAccess
      [{ id := "m1", teamId := "t1", userId := "u1", role := .admin,
         isActive := true, createdAt := 0 }]
      [{ id := "t1", deletedAt := none }] "u1" "t1" (some .member) =
      .ok { userId := "u1", teamId := "t1", role := .admin,
            isActive := true } :=
  (require_team_access_characterization
      [{ id := "m1", teamId := "t1", userId := "u1", role := .admin,
         isActive := true, createdAt := 0 }]
      [{ id := "t1", deletedAt := none }] "u1" "t1"
      (some .member)).2.2.2.2
    { userId := "u1", teamId := "t1", role := .admin, isActive := true }
    .member (by decide) (by decide) (by decide)

/- ## Role change and session revocation (authorization.py, change_member_role) -/

/-- A database effect committed by one `with get_cursor()` transaction
during a role change. -/
inductive TxnEffect
  | roleUpdate (teamId userId : String) (newRole : Role)
  | revokeUser (userId : String) (reason : String)
deriving Repr, DecidableEq

/-- Whether a transaction effect is the membership-role UPDATE. -/
def TxnEffect.isRoleUpdate : TxnEffect → Bool
  | .roleUpdate _ _ _ => true
  | _ => false

/-- Whether a transaction effect is the session-revocation UPDATE. -/
def TxnEffect.isRevokeUser : TxnEffect → Bool
  | .revokeUser _ _ => true
  | _ => false

/-- The tables touched by `change_member_role`. -/
structure AuthDB where
  teams : List TeamRow
  memberships : List TeamMembershipRow
  sessions : List Session
deriving Repr, DecidableEq

/-- Mirrors `change_member_role`: permission checks, owner-only-owner rules,
the role UPDATE in one `get_cursor` transaction, then
`revoke_all_user_sessions` with reason ROLE_CHANGE in a second `get_cursor`
transaction. The third component lists the committed transactions in order,
each with the effects it contains. -/
def changeMemberRole (db : AuthDB) (teamId userId : String) (newRole : Role)
    (changedBy : String) (now : Int) :
    Except AuthorizationFailure Unit × AuthDB × List (List TxnEffect) :=
  match requireTeamAccess db.memberships db.teams changedBy teamId
      (some .admin) with
  | .error e => (.error e, db, [])
  | .ok changerContext =>
      if (match getAuthorizationContext db.memberships db.teams userId
            teamId with
          | some c => c.role == Role.owner && !changerContext.isOwner
          | none => false : Bool) then
        (.error .roleError, db, [])
      else if newRole == Role.owner && !changerContext.isOwner then
        (.error .roleError, db, [])
      else if db.memberships.countP
          (fun m : TeamMembershipRow =>
            m.teamId == teamId && m.userId == userId) == 0 then
        (.error .teamBoundary, db, [])
      else
        (.ok (),
         { db with
           memberships := db.memberships.map
             (fun m : TeamMembershipRow =>
               if m.teamId == teamId && m.userId == userId then
                 { m with role := newRole }
               else m),
           sessions :=
             (revokeAllUserSessions db.sessions userId "role_change"
               none now).1 },
         [[.roleUpdate teamId userId newRole],
          [.revokeUser userId "role_change"]])

/-- After `revoke_all_user_sessions` with no exclusion, every session of the
user has `revoked_at` set. -/
theorem revoke_all_sets_user (db : List Session) (userId reason : String)
    (now : Int) :
    ∀ s ∈ (revokeAllUserSessions db userId reason none now).1,
      s.userId = userId → s.revokedAt ≠ none := by
  intro s hs huser
  unfold revokeAllUserSessions at hs
  rcases List.mem_map.mp hs with ⟨s0, hs0, rfl⟩
  by_cases htc : revokeTouches userId none s0 = true
  · simp [htc]
  · rw [if_neg htc] at huser ⊢
    intro hnone
    exact htc (by simp [revokeTouches, huser, hnone])

/-- Sessions of the user that were unrevoked at call time come out of
`revoke_all_user_sessions` revoked now, with the given reason. -/
theorem revoke_all_touches_unrevoked (db : List Session)
    (userId reason : String) (now : Int) :
    ∀ s ∈ db, s.userId = userId → s.revokedAt = none →
      { s with revokedAt := some now, revocationReason := some reason } ∈
        (revokeAllUserSessions db userId reason none now).1 := by
  intro s hs huser hnone
  have htc : revokeTouches userId none s = true := by
    simp [revokeTouches, huser, hnone]
  unfold revokeAllUserSessions
  exact List.mem_map.mpr ⟨s, hs, by simp [htc]⟩

/-- Sessions already revoked at call time pass through
`revoke_all_user_sessions` unchanged, keeping their earlier reason. -/
theorem revoke_all_keeps_revoked (db : List Session)
    (userId reason : String) (now : Int) :
    ∀ s ∈ db, s.revokedAt ≠ none →
      s ∈ (revokeAllUserSessions db userId reason none now).1 := by
  intro s hs hrev
  have htc : revokeTouches userId none s = false := by
    unfold revokeTouches
    cases h : s.revokedAt with
    | none => exact absurd h hrev
    | some t => simp [h]
  unfold revokeAllUserSessions
  exact List.mem_map.mpr ⟨s, hs, by simp [htc]⟩

/-- A concrete database for exercising `change_member_role`: an active team,
an owner who performs the change, a member whose role is changed, and one
session of that member that was revoked earlier with reason MANUAL_LOGOUT. -/
def roleChangeDB : AuthDB :=
  { teams := [{ id := "t1", deletedAt := none }],
    memberships :=
      [{ id := "m0", teamId := "t1", userId := "boss", role := .owner,
         isActive := true, createdAt := 0 },
       { id := "m1", teamId := "t1", userId := "u1", role := .member,
         isActive := true, createdAt := 0 }],
    sessions :=
      [{ id := "s1", userId := "u1", tokenHash := "h1", teamId := none,
         ipAddress := none, userAgent := none, createdAt := 0,
         lastUsedAt := 0, revokedAt := some 5,
         revocationReason := some "manual_logout" }] }

/-- C3 counterexample: on `roleChangeDB` the role change succeeds, yet the
session of the affected user that existed at call time keeps its earlier
revocation reason MANUAL_LOGOUT rather than ROLE_CHANGE, and no single
committed transaction contains both the role update and the session
revocation: they are committed as two separate transactions. -/
theorem change_member_role_ce :
    (changeMemberRole roleChangeDB "t1" "u1" .viewer "boss" 100).1 =
      .ok () ∧
    (∃ s ∈ (changeMemberRole roleChangeDB "t1" "u1" .viewer
        "boss" 100).2.1.sessions,
      s ∈ roleChangeDB.sessions ∧ s.userId = "u1" ∧
        s.revocationReason ≠ some "role_change") ∧
    (∀ txn ∈ (changeMemberRole roleChangeDB "t1" "u1" .viewer
        "boss" 100).2.2,
      ¬ ((∃ e ∈ txn, e.isRoleUpdate = true) ∧
         (∃ e ∈ txn, e.isRevokeUser = true))) := by
  decide

/-- C3 (amended): when `change_member_role` succeeds, the sessions table is
exactly the result of `revoke_all_user_sessions` with reason ROLE_CHANGE:
every session of the affected user ends with `revoked_at` set; those
unrevoked at call time are revoked now with reason ROLE_CHANGE, while
sessions already revoked keep their earlier timestamp and reason; and the
revocation is committed in a second transaction immediately after the
role-change transaction, not in the same one. -/
theorem change_member_role_amended (db : AuthDB) (teamId userId : String)
    (newRole : Role) (changedBy : String) (now : Int)
    (hok : (changeMemberRole db teamId userId newRole changedBy now).1 =
      .ok ()) :
    (changeMemberRole db teamId userId newRole changedBy now).2.1.sessions =
      (revokeAllUserSessions db.sessions userId "role_change" none now).1 ∧
    (∀ s ∈ (changeMemberRole db teamId userId newRole changedBy
        now).2.1.sessions, s.userId = userId → s.revokedAt ≠ none) ∧
    (∀ s ∈ db.sessions, s.userId = userId → s.revokedAt = none →
      { s with revokedAt := some now,
               revocationReason := some "role_change" } ∈
        (changeMemberRole db teamId userId newRole changedBy
          now).2.1.sessions) ∧
    (∀ s ∈ db.sessions, s.revokedAt ≠ none →
      s ∈ (changeMemberRole db teamId userId newRole changedBy
        now).2.1.sessions) ∧
    (changeMemberRole db teamId userId newRole changedBy now).2.2 =
      [[.roleUpdate teamId userId newRole],
       [.revokeUser userId "role_change"]] := by
  unfold changeMemberRole at hok ⊢
  cases hreq : requireTeamAccess db.memberships db.teams changedBy teamId
      (some .admin) with
  | error e =>
      rw [hreq] at hok
      simp at hok
  | ok changerContext =>
      rw [hreq] at hok
      dsimp only at hok ⊢
      split_ifs at hok ⊢ with h1 h2 h3
      exact ⟨rfl,
        revoke_all_sets_user db.sessions userId "role_change" now,
        revoke_all_touches_unrevoked db.sessions userId "role_change" now,
        revoke_all_keeps_revoked db.sessions userId "role_change" now,
        rfl⟩

/-- Closed instance of the amended C3 on `roleChangeDB`: the two separate
committed transactions. -/
theorem change_member_role_amended_w :
    (changeMemberRole roleChangeDB "t1" "u1" .viewer "boss" 100).2.2 =
      [[.roleUpdate "t1" "u1" .viewer], [.revokeUser "u1" "role_change"]] :=
  (change_member_role_amended roleChangeDB "t1" "u1" .viewer "boss" 100
    (by decide)).2.2.2.2

/- ## Payments and audit (payments.py, audit.py, transactions.py) -/

/-- Payment status, mirroring `PaymentStatus`. -/
inductive PaymentStatus
  | pending
  | completed
  | failed
  | cancelled
  | refunded
deriving Repr, DecidableEq

/-- A row of the payments table, with the fields touched by
`complete_payment`. -/
structure PaymentRow where
  id : String
  teamId : String
  userId : String
  amountCents : Int
  currency : String
  status : PaymentStatus
  stripePaymentIntentId : Option String
  stripeChargeId : Option String
  completedAt : Option Int
  idempotencyKey : String
deriving Repr, DecidableEq

/-- A row of the audit_logs table, with the fields written by `log_event`. -/
structure AuditRow where
  eventType : String
  actorId : Option String
  actorType : String
  resourceType : Option String
  resourceId : Option String
  action : String
deriving Repr, DecidableEq

/-- The two tables touched by a payment transition. -/
structure PayDB where
  payments : List PaymentRow
  auditLogs : List AuditRow
deriving Repr, DecidableEq

/-- Database failures during a payment transition: `DatabaseError` raised by
`log_event` when the audit INSERT fails, and `SerializationError` raised
when the SERIALIZABLE payment transaction fails to commit. -/
inductive PayFailure
  | dbError
  | serializationFailure
deriving Repr, DecidableEq

/-- Mirrors `log_event`: the audit row is inserted and committed inside its
own `audit_transaction()` (a fresh READ COMMITTED transaction on a separate
pooled connection), not inside the transaction of the caller. `auditOk`
models whether this audit transaction succeeds; on failure nothing of it
persists and `DatabaseError` is raised. -/
def logEvent (db : PayDB) (row : AuditRow) (auditOk : Bool) :
    Except PayFailure PayDB :=
  if auditOk then .ok { db with auditLogs := db.auditLogs ++ [row] }
  else .error .dbError

/-- The WHERE clause of the UPDATE in `complete_payment`:
`id = %s AND status = 'pending'`. -/
def completeTargets (paymentId : String) (p : PaymentRow) : Bool :=
  p.id == paymentId && p.status == PaymentStatus.pending

/-- The audit row written by `complete_payment`. -/
def paymentCompletedRow (paymentId : String) : AuditRow :=
  { eventType := "payment.completed", actorId := none,
    actorType := "system", resourceType := some "payment",
    resourceId := some paymentId, action := "Payment completed" }

/-- Mirrors one attempt of the `execute()` closure of `complete_payment`
(the body that `with_retry` re-invokes): inside a SERIALIZABLE
`payment_transaction()`, run the conditional UPDATE; on rowcount zero return
False; otherwise call `log_event` (which commits in its own transaction);
then commit the payment transaction. `auditOk` models the audit INSERT
outcome and `commitOk` the payment-transaction commit outcome. Returns the
raised failure or the boolean result, together with the database state
after the attempt. -/
def completePaymentAttempt (db : PayDB) (paymentId : String)
    (stripePaymentIntentId : String) (stripeChargeId : Option String)
    (now : Int) (auditOk commitOk : Bool) :
    Except PayFailure Bool × PayDB :=
  let updated := db.payments.map (fun p =>
    if completeTargets paymentId p then
      { p with status := .completed,
               stripePaymentIntentId := some stripePaymentIntentId,
               stripeChargeId := stripeChargeId,
               completedAt := some now }
    else p)
  if db.payments.countP (completeTargets paymentId) == 0 then
    if commitOk then (.ok false, db) else (.error .serializationFailure, db)
  else
    match logEvent db (paymentCompletedRow paymentId) auditOk with
    | .error e => (.error e, db)
    | .ok db1 =>
        if commitOk then (.ok true, { db1 with payments := updated })
        else (.error .serializationFailure, db1)

/-- C2 counterexample: the audit write is not inside the payment
transaction. On a database with one pending payment, an attempt whose audit
INSERT succeeds but whose payment transaction fails to commit leaves the
`payment.completed` audit event committed while the payment is still
pending: the audit event persists without the state change it describes. -/
theorem complete_payment_audit_not_atomic_ce :
    (completePaymentAttempt
        { payments := [{ id := "p1", teamId := "t1", userId := "u1",
                         amountCents := 2500, currency := "USD",
                         status := .pending, stripePaymentIntentId := none,
                         stripeChargeId := none, completedAt := none,
                         idempotencyKey := "k1" }],
          auditLogs := [] } "p1" "pi_1" none 100 true false).1 =
      .error .serializationFailure ∧
    (∃ row ∈ (completePaymentAttempt
        { payments := [{ id := "p1", teamId := "t1", userId := "u1",
                         amountCents := 2500, currency := "USD",
                         status := .pending, stripePaymentIntentId := none,
                         stripeChargeId := none, completedAt := none,
                         idempotencyKey := "k1" }],
          auditLogs := [] } "p1" "pi_1" none 100 true false).2.auditLogs,
      row.eventType = "payment.completed") ∧
    (∀ p ∈ (completePaymentAttempt
        { payments := [{ id := "p1", teamId := "t1", userId := "u1",
                         amountCents := 2500, currency := "USD",
                         status := .pending, stripePaymentIntentId := none,
                         stripeChargeId := none, completedAt := none,
                         idempotencyKey := "k1" }],
          auditLogs := [] } "p1" "pi_1" none 100 true false).2.payments,
      p.status = .pending) := by
  decide

/-- C2 (amended): the audit event is written by `log_event` in its own
READ COMMITTED transaction that commits before the payment transaction
commits. A failure of the audit write still aborts the state change: the
attempt raises and leaves the database untouched. When both the audit write
and the payment commit succeed, both persist. But the converse coupling
does not hold: when the payment transaction fails to commit after a
successful audit write, the audit event persists without the state
change. -/
theorem complete_payment_audit_coupling (db : PayDB) (paymentId : String)
    (intentId : String) (chargeId : Option String) (now : Int)
    (hrow : db.payments.countP (completeTargets paymentId) ≠ 0) :
    (∀ commitOk, completePaymentAttempt db paymentId intentId chargeId now
        false commitOk = (.error .dbError, db)) ∧
    (completePaymentAttempt db paymentId intentId chargeId now true true =
      (.ok true,
       { payments := db.payments.map (fun p =>
           if completeTargets paymentId p then
             { p with status := .completed,
                      stripePaymentIntentId := some intentId,
                      stripeChargeId := chargeId,
                      completedAt := some now }
           else p),
         auditLogs := db.auditLogs ++ [paymentCompletedRow paymentId] })) ∧
    (completePaymentAttempt db paymentId intentId chargeId now true false =
      (.error .serializationFailure,
       { db with auditLogs := db.auditLogs ++ [paymentCompletedRow paymentId] })) := by
  have hc : (db.payments.countP (completeTargets paymentId) == 0) = false := by
    simp [hrow]
  refine ⟨?_, ?_, ?_⟩
  · intro commitOk
    unfold completePaymentAttempt
    rw [hc]
    rfl
  · unfold completePaymentAttempt
    rw [hc]
    rfl
  · unfold completePaymentAttempt
    rw [hc]
    rfl

/-- Closed instance of the amended C2: a failed audit write aborts the
state change entirely. -/
theorem complete_payment_audit_coupling_w :
    completePaymentAttempt
      { payments := [{ id := "p1", teamId := "t1", userId := "u1",
                       amountCents := 2500, currency := "USD",
                       status := .pending, stripePaymentIntentId := none,
                       stripeChargeId := none, completedAt := none,
                       idempotencyKey := "k1" }],
        auditLogs := [] } "p1" "pi_1" none 100 false true =
      (.error .dbError,
       { payments := [{ id := "p1", teamId := "t1", userId := "u1",
                        amountCents := 2500, currency := "USD",
                        status := .pending, stripePaymentIntentId := none,
                        stripeChargeId := none, completedAt := none,
                        idempotencyKey := "k1" }],
         auditLogs := [] }) :=
  (complete_payment_audit_coupling
    { payments := [{ id := "p1", teamId := "t1", userId := "u1",
                     amountCents := 2500, currency := "USD",
                     status := .pending, stripePaymentIntentId := none,
                     stripeChargeId := none, completedAt := none,
                     idempotencyKey := "k1" }],
      auditLogs := [] } "p1" "pi_1" none 100 (by decide)).1 true

/- ## Webhook processing (src/backend/services/webhooks.py) -/

/-- Mirrors `str.split(sep)` over characters. -/
def splitOnChar (sep : Char) : List Char → List (List Char)
  | [] => [[]]
  | c :: rest =>
      let r := splitOnChar sep rest
      if c == sep then [] :: r
      else
        match r with
        | [] => [[c]]
        | h :: t => (c :: h) :: t

/-- Mirrors `item.split("=", 1)`: split at the first equals sign only;
`none` when there is none, in which case the `dict()` unpacking in the
source raises and the header is rejected. -/
def splitOnceAtEq : List Char → Option (List Char × List Char)
  | [] => none
  | c :: rest =>
      if c == '=' then some ([], rest)
      else
        match splitOnceAtEq rest with
        | none => none
        | some (k, v) => some (c :: k, v)

/-- One step of `dict(...)` construction: a later binding for an existing
key overwrites its value, a new key is appended. -/
def dictInsert (acc : List (List Char × List Char)) (k v : List Char) :
    List (List Char × List Char) :=
  if acc.any (fun p => p.1 == k) then
    acc.map (fun p => if p.1 == k then (k, v) else p)
  else acc ++ [(k, v)]

/-- Mirrors `dict(pairs)`: last value wins per key. -/
def dictOfPairs (pairs : List (List Char × List Char)) :
    List (List Char × List Char) :=
  pairs.foldl (fun acc kv => dictInsert acc kv.1 kv.2) []

/-- Mirrors `dict.get(key, default)`. -/
def dictGet (d : List (List Char × List Char)) (k dflt : List Char) :
    List Char :=
  match d.find? (fun p => p.1 == k) with
  | some p => p.2
  | none => dflt

/-- Decimal digits to a natural number; `none` when empty or non-digit. -/
def parseDigits (l : List Char) : Option Nat :=
  if l.isEmpty then none
  else if l.all (fun c => c.isDigit) then
    some (l.foldl (fun acc c => acc * 10 + (c.toNat - '0'.toNat)) 0)
  else none

/-- Mirrors `int(s)` on the header timestamp: optional minus sign and
decimal digits; `none` models the ValueError path. -/
def parseInt : List Char → Option Int
  | [] => none
  | c :: rest =>
      if c == '-' then (parseDigits rest).map (fun n => -(n : Int))
      else (parseDigits (c :: rest)).map (fun n => (n : Int))

/-- Mirrors `is_within_clock_skew` (utils/database.py): the absolute
difference between now and the timestamp is at most the tolerance. -/
def isWithinClockSkew (timestamp now toleranceSeconds : Int) : Bool :=
  decide (|now - timestamp| ≤ toleranceSeconds)

/-- The characters of a string literal. -/
def strChars (s : String) : List Char :=
  s.data

/-- Parse the signature header into its `k=v` elements with `dict`
semantics; `none` models the exception path of the source. -/
def parseSigElements (header : List Char) :
    Option (List (List Char × List Char)) :=
  ((splitOnChar ',' header).mapM splitOnceAtEq).map dictOfPairs

/-- The `v1` candidates of the parsed header: values of keys starting with
`v1`, mirroring `k.startswith("v1")` over the dict items. -/
def v1Candidates (elements : List (List Char × List Char)) :
    List (List Char) :=
  (elements.filter (fun p => p.1.take 2 == strChars "v1")).map (fun p => p.2)

/-- Mirrors `verify_stripe_signature`. `hmacHex` is the abstract
HMAC-SHA256 hex digest (secret, message to characters); the signed message
is the decimal timestamp, a dot, then the payload; candidates are compared
with `hmac.compare_digest`, which is semantically equality. Returns
`(is_valid, error_message)`. -/
def verifyStripeSignature (hmacHex : String → List Char → List Char)
    (secret : String) (payload : List Char) (signatureHeader : List Char)
    (now toleranceSeconds : Int) : Bool × Option String :=
  if secret == "" then (false, some "Webhook secret not configured")
  else
    match parseSigElements signatureHeader with
    | none => (false, some "Verification error")
    | some elements =>
        match parseInt (dictGet elements (strChars "t") (strChars "0")) with
        | none => (false, some "Verification error")
        | some timestamp =>
            let signatures := v1Candidates elements
            if signatures.isEmpty then (false, some "No v1 signature found")
            else if !isWithinClockSkew timestamp now toleranceSeconds then
              (false, some "Timestamp outside tolerance")
            else
              let expectedSig := hmacHex secret
                (strChars (toString timestamp) ++ '.' :: payload)
              if signatures.any (fun sig => expectedSig == sig) then
                (true, none)
              else (false, some "Signature mismatch")

/-- C9: Stripe webhook signature verification accepts a payload iff the
header timestamp t satisfies the clock-skew bound |now - t| <= 300 under the
default tolerance and the HMAC-SHA256 hex digest of "<t>." followed by the
payload equals some v1 candidate of the header; in particular t = now - 301
is rejected, and t = now - 299 with a matching candidate is accepted. -/
theorem verify_stripe_signature_iff
    (hmacHex : String → List Char → List Char) (secret : String)
    (payload header : List Char) (now : Int)
    (elements : List (List Char × List Char)) (t : Int)
    (hsecret : secret ≠ "")
    (helems : parseSigElements header = some elements)
    (ht : parseInt (dictGet elements (strChars "t") (strChars "0")) = some t)
    (hcand : v1Candidates elements ≠ []) :
    ((verifyStripeSignature hmacHex secret payload header now 300).1 =
        true ↔
      |now - t| ≤ 300 ∧
        hmacHex secret (strChars (toString t) ++ '.' :: payload) ∈
          v1Candidates elements) ∧
    (t = now - 301 →
      (verifyStripeSignature hmacHex secret payload header now 300).1 =
        false) ∧
    (t = now - 299 →
      hmacHex secret (strChars (toString t) ++ '.' :: payload) ∈
        v1Candidates elements →
      (verifyStripeSignature hmacHex secret payload header now 300).1 =
        true) := by
  have hsecretb : (secret == "") = false := beq_eq_false_iff_ne.mpr hsecret
  have hempty : (v1Candidates elements).isEmpty = false := by
    cases hv : v1Candidates elements with
    | nil => exact absurd hv hcand
    | cons a l => rfl
  have heval : (verifyStripeSignature hmacHex secret payload header
      now 300).1 =
      (isWithinClockSkew t now 300 &&
       (v1Candidates elements).any (fun sig =>
         hmacHex secret (strChars (toString t) ++ '.' :: payload) ==
           sig)) := by
    unfold verifyStripeSignature
    simp only [hsecretb, Bool.false_eq_true, if_false, helems, ht, hempty]
    cases hskew : isWithinClockSkew t now 300 with
    | false => simp [hskew]
    | true =>
        simp only [Bool.not_true, Bool.false_eq_true, if_false,
          Bool.true_and]
        cases hany : (v1Candidates elements).any (fun sig =>
            hmacHex secret (strChars (toString t) ++ '.' :: payload) ==
              sig) with
        | false => simp [hany]
        | true => simp [hany]
  have hiff : (verifyStripeSignature hmacHex secret payload header
      now 300).1 = true ↔
      |now - t| ≤ 300 ∧
        hmacHex secret (strChars (toString t) ++ '.' :: payload) ∈
          v1Candidates elements := by
    rw [heval]
    constructor
    · intro h
      have hparts := (Bool.and_eq_true _ _).mp h
      refine ⟨of_decide_eq_true hparts.1, ?_⟩
      rcases List.any_eq_true.mp hparts.2 with ⟨sig, hmem, hbeq⟩
      rw [beq_iff_eq.mp hbeq]
      exact hmem
    · intro ⟨hskew, hmem⟩
      refine (Bool.and_eq_true _ _).mpr ⟨decide_eq_true hskew, ?_⟩
      exact List.any_eq_true.mpr ⟨_, hmem, beq_self_eq_true _⟩
  refine ⟨hiff, ?_, ?_⟩
  · intro ht301
    cases hb : (verifyStripeSignature hmacHex secret payload header
        now 300).1 with
    | false => rfl
    | true =>
        have hsk := (hiff.mp hb).1
        rw [ht301] at hsk
        have harith : now - (now - 301) = 301 := by ring
        rw [harith] at hsk
        norm_num at hsk
  · intro ht299 hmem
    refine hiff.mpr ⟨?_, hmem⟩
    rw [ht299]
    have harith : now - (now - 299) = 299 := by ring
    rw [harith]
    norm_num

/-- Closed instance of C9: timestamp at now - 299 with a matching candidate
is accepted. -/
theorem verify_stripe_signature_iff_w :
    (verifyStripeSignature (fun _ _ => strChars "aa") "s" []
      (strChars "t=100,v1=aa") 399 300).1 = true :=
  (verify_stripe_signature_iff (fun _ _ => strChars "aa") "s" []
    (strChars "t=100,v1=aa") 399
    [(strChars "t", strChars "100"), (strChars "v1", strChars "aa")] 100
    (by decide) (by decide) (by decide) (by decide)).2.2
    (by decide) (by decide)

/-- A row of the processed_webhooks table. -/
structure ProcessedWebhook where
  webhookId : String
  provider : String
  eventType : Option String
  payload : String
  status : String
  signatureValid : Bool
deriving Repr, DecidableEq

/-- Exceptions raised by the webhook processor. -/
inductive WebhookFailure
  | signatureError (msg : String)
  | duplicateError
  | missingId
deriving Repr, DecidableEq

/-- Mirrors `check_webhook_processed`: row exists for
`(webhook_id, provider)`. -/
def checkWebhookProcessed (db : List ProcessedWebhook)
    (webhookId provider : String) : Bool :=
  db.any (fun w => w.webhookId == webhookId && w.provider == provider)

/-- Mirrors `record_webhook`: INSERT with
`ON CONFLICT (webhook_id, provider) DO NOTHING RETURNING id`; an empty
RETURNING set means a duplicate and raises, inserting nothing. -/
def recordWebhook (db : List ProcessedWebhook)
    (webhookId provider : String) (eventType : Option String)
    (payloadJson status : String) (signatureValid : Bool) (newId : String) :
    Except WebhookFailure String × List ProcessedWebhook :=
  if checkWebhookProcessed db webhookId provider then
    (.error .duplicateError, db)
  else
    (.ok newId,
     db ++ [{ webhookId := webhookId, provider := provider,
              eventType := eventType, payload := payloadJson,
              status := status, signatureValid := signatureValid }])

/-- Mirrors `process_stripe_webhook`: verify the signature, check the
dedup key, record the webhook. The JSON parse of the body is abstracted:
`eventId` and `eventType` are the parsed `id` and `type` fields and
`payloadJson` the serialized payload. Returns the event type and webhook id
on success, together with the table after the call. -/
def processStripeWebhook (hmacHex : String → List Char → List Char)
    (secret : String) (payload sigHeader : List Char) (now : Int)
    (eventId eventType : Option String) (payloadJson : String)
    (db : List ProcessedWebhook) (newId : String) :
    Except WebhookFailure (Option String × String) ×
      List ProcessedWebhook :=
  let verdict := verifyStripeSignature hmacHex secret payload sigHeader
    now 300
  if !verdict.1 then
    (.error (.signatureError (optionStr verdict.2)), db)
  else
    match eventId with
    | none => (.error .missingId, db)
    | some webhookId =>
        if checkWebhookProcessed db webhookId "stripe" then
          (.error .duplicateError, db)
        else
          match recordWebhook db webhookId "stripe" eventType payloadJson
              "processed" true newId with
          | (.error e, db1) => (.error e, db1)
          | (.ok _, db1) => (.ok (eventType, webhookId), db1)

/-- Outcome of the `/api/webhooks/stripe` route (routes/webhooks.py): HTTP
status, duplicate flag of the response body, the handler dispatched (by
name), and the table after the request. -/
structure WebhookRouteResult where
  httpStatus : Nat
  duplicate : Bool
  dispatched : Option String
  db : List ProcessedWebhook
deriving Repr, DecidableEq

/-- Mirrors `stripe_webhook`: map processor outcomes to responses and
dispatch the matching handler only after successful processing. -/
def stripeWebhookRoute (hmacHex : String → List Char → List Char)
    (secret : String) (payload sigHeader : List Char) (now : Int)
    (eventId eventType : Option String) (payloadJson : String)
    (db : List ProcessedWebhook) (newId : String) : WebhookRouteResult :=
  match processStripeWebhook hmacHex secret payload sigHeader now eventId
      eventType payloadJson db newId with
  | (.error (.signatureError _), db1) =>
      { httpStatus := 400, duplicate := false, dispatched := none,
        db := db1 }
  | (.error .duplicateError, db1) =>
      { httpStatus := 200, duplicate := true, dispatched := none,
        db := db1 }
  | (.error .missingId, db1) =>
      { httpStatus := 500, duplicate := false, dispatched := none,
        db := db1 }
  | (.ok (etype, _), db1) =>
      { httpStatus := 200, duplicate := false,
        dispatched :=
          if etype == some "payment_intent.succeeded" then
            some "handle_payment_succeeded"
          else if etype == some "payment_intent.payment_failed" then
            some "handle_payment_failed"
          else none,
        db := db1 }

/-- C5: a webhook whose `(webhook_id, provider)` pair is already recorded is
not processed again: the processor raises the duplicate outcome with the
table unchanged (no insert), the route answers 200 with `duplicate: true`
and dispatches no handler, and `record_webhook` itself would also insert
nothing for the pair. -/
theorem webhook_duplicate_rejected
    (hmacHex : String → List Char → List Char) (secret : String)
    (payload sigHeader : List Char) (now : Int)
    (eventType : Option String) (payloadJson : String)
    (db : List ProcessedWebhook) (newId webhookId : String)
    (hdup : checkWebhookProcessed db webhookId "stripe" = true)
    (hsig : (verifyStripeSignature hmacHex secret payload sigHeader
      now 300).1 = true) :
    processStripeWebhook hmacHex secret payload sigHeader now
        (some webhookId) eventType payloadJson db newId =
      (.error .duplicateError, db) ∧
    stripeWebhookRoute hmacHex secret payload sigHeader now
        (some webhookId) eventType payloadJson db newId =
      { httpStatus := 200, duplicate := true, dispatched := none,
        db := db } ∧
    recordWebhook db webhookId "stripe" eventType payloadJson "processed"
        true newId = (.error .duplicateError, db) := by
  have hproc : processStripeWebhook hmacHex secret payload sigHeader now
      (some webhookId) eventType payloadJson db newId =
      (.error .duplicateError, db) := by
    unfold processStripeWebhook
    simp only [hsig, Bool.not_true, Bool.false_eq_true, if_false, hdup,
      if_true]
  refine ⟨hproc, ?_, ?_⟩
  · unfold stripeWebhookRoute
    rw [hproc]
  · unfold recordWebhook
    rw [hdup]
    rfl

/-- Closed instance of C5: replaying a recorded webhook id yields the
duplicate outcome with no insert and no dispatch. -/
theorem webhook_duplicate_rejected_w :
    stripeWebhookRoute (fun _ _ => strChars "aa") "s" []
      (strChars "t=100,v1=aa") 399 (some "evt_1")
      (some "payment_intent.succeeded") "{}"
      [{ webhookId := "evt_1", provider := "stripe",
         eventType := some "payment_intent.succeeded", payload := "{}",
         status := "processed", signatureValid := true }] "new" =
      { httpStatus := 200, duplicate := true, dispatched := none,
        db := [{ webhookId := "evt_1", provider := "stripe",
                 eventType := some "payment_intent.succeeded",
                 payload := "{}", status := "processed",
                 signatureValid := true }] } :=
  (webhook_duplicate_rejected (fun _ _ => strChars "aa") "s" []
    (strChars "t=100,v1=aa") 399 (some "payment_intent.succeeded") "{}"
    [{ webhookId := "evt_1", provider := "stripe",
       eventType := some "payment_intent.succeeded", payload := "{}",
       status := "processed", signatureValid := true }] "new" "evt_1"
    (by decide) (by decide)).2.1

/- ## Rate limiting (src/backend/middleware/rate_limit.py) -/

/-- Smallest element of a list of scores, 0 when empty; mirrors
`zrange(key, 0, 0)` on the sorted set (used only on nonempty sets). -/
def listMin : List Int → Int
  | [] => 0
  | x :: xs => xs.foldl min x

/-- The pruning predicate of `zremrangebyscore(key, 0, window_start)`:
scores in [0, now - window] are removed. -/
def rateKeeps (now windowSeconds : Int) (ts : Int) : Bool :=
  !(decide (0 ≤ ts) && decide (ts ≤ now - windowSeconds))

/-- The sorted set after `zremrangebyscore(key, 0, now - window)`. -/
def ratePruned (store : List Int) (now windowSeconds : Int) : List Int :=
  store.filter (rateKeeps now windowSeconds)

/-- The sorted set after the subsequent `zadd(key, {str(now): now})`:
adding an existing member is a no-op. -/
def rateAdded (store : List Int) (now windowSeconds : Int) : List Int :=
  if (ratePruned store now windowSeconds).contains now then
    ratePruned store now windowSeconds
  else ratePruned store now windowSeconds ++ [now]

/-- Mirrors `check_rate_limit` on the sorted set of one key. Members are
the rendered scores, so the set is a duplicate-free list of timestamps.
Pipeline: remove entries in [0, now - window]; add now; count via `zcard`;
set the key TTL to window + 10. On count > limit, `retry_after` is
`window - (now - oldest) + 1` (the `int()` truncation is exact over
integer time). Returns `(is_allowed, current_count, retry_after)`, the new
set, and the TTL. -/
def checkRateLimit (store : List Int) (now : Int) (limit : Nat)
    (windowSeconds : Int) : (Bool × Nat × Int) × List Int × Int :=
  let added := rateAdded store now windowSeconds
  if added.length > limit then
    ((false, added.length,
      windowSeconds - (now - listMin added) + 1), added,
     windowSeconds + 10)
  else
    ((true, added.length, 0), added, windowSeconds + 10)

/-- Helper: a left fold by `min` is at most its initial value. -/
theorem foldlMin_le_init (xs : List Int) (a : Int) :
    xs.foldl min a ≤ a := by
  induction xs generalizing a with
  | nil => exact le_refl a
  | cons x t ih => exact le_trans (ih (min a x)) (min_le_left a x)

/-- Helper: a left fold by `min` is at most every list element. -/
theorem foldlMin_le_mem (xs : List Int) (a : Int) :
    ∀ y ∈ xs, xs.foldl min a ≤ y := by
  induction xs generalizing a with
  | nil => intro y hy; cases hy
  | cons x t ih =>
      intro y hy
      simp only [List.foldl_cons]
      cases hy with
      | head =>
          exact le_trans (foldlMin_le_init t (min a x)) (min_le_right a x)
      | tail _ hmem => exact ih (min a x) y hmem

/-- Helper: a left fold by `min` is the initial value or a list element. -/
theorem foldlMin_mem (xs : List Int) (a : Int) :
    xs.foldl min a = a ∨ xs.foldl min a ∈ xs := by
  induction xs generalizing a with
  | nil => exact Or.inl rfl
  | cons x t ih =>
      simp only [List.foldl_cons]
      cases ih (min a x) with
      | inl h =>
          cases min_choice a x with
          | inl hm => exact Or.inl (by rw [h, hm])
          | inr hm =>
              exact Or.inr (by rw [h, hm]; exact List.mem_cons_self x t)
      | inr h => exact Or.inr (List.mem_cons_of_mem x h)

/-- Helper: the minimum of a nonempty list is an element of it. -/
theorem listMin_mem (l : List Int) (hne : l ≠ []) : listMin l ∈ l := by
  cases l with
  | nil => exact absurd rfl hne
  | cons x xs =>
      show xs.foldl min x ∈ x :: xs
      cases foldlMin_mem xs x with
      | inl h => rw [h]; exact List.mem_cons_self x xs
      | inr h => exact List.mem_cons_of_mem x h

/-- Helper: the minimum of a list bounds every element from below. -/
theorem listMin_le (l : List Int) : ∀ y ∈ l, listMin l ≤ y := by
  cases l with
  | nil => intro y hy; cases hy
  | cons x xs =>
      intro y hy
      cases hy with
      | head => exact foldlMin_le_init xs x
      | tail _ hmem => exact foldlMin_le_mem xs x y hmem

/-- Helper: a duplicate-free list whose elements are all equal has at most
one element. -/
theorem nodupAllEqShort {α : Type} (l : List α) (c : α) (hn : l.Nodup)
    (h : ∀ y ∈ l, y = c) : l.length ≤ 1 := by
  match l with
  | [] => simp
  | [x] => simp
  | x :: y :: t =>
      exfalso
      have hx : x = c := h x (by simp)
      have hy : y = c := h y (by simp)
      rw [List.nodup_cons] at hn
      exact hn.1 (by rw [hx, ← hy]; exact List.mem_cons_self y t)

/-- Helper: every member of the set after prune-and-add is younger than the
window start. -/
theorem rateAdded_young (store : List Int) (now windowSeconds : Int)
    (hnonneg : ∀ ts ∈ store, 0 ≤ ts) (hwin : 0 < windowSeconds) :
    ∀ ts ∈ rateAdded store now windowSeconds, now - windowSeconds < ts := by
  intro ts hts
  have hmem : ts ∈ ratePruned store now windowSeconds ∨ ts = now := by
    unfold rateAdded at hts
    by_cases hc : (ratePruned store now windowSeconds).contains now
    · rw [if_pos hc] at hts
      exact Or.inl hts
    · rw [if_neg hc] at hts
      cases List.mem_append.mp hts with
      | inl h => exact Or.inl h
      | inr h => exact Or.inr (List.mem_singleton.mp h)
  cases hmem with
  | inl h =>
      have hf := List.mem_filter.mp h
      have hnn := hnonneg ts hf.1
      have hkeep := hf.2
      unfold rateKeeps at hkeep
      simp at hkeep
      omega
  | inr h => omega

/-- Helper: every member of the set after prune-and-add is at most now. -/
theorem rateAdded_le_now (store : List Int) (now windowSeconds : Int)
    (hle : ∀ ts ∈ store, ts ≤ now) :
    ∀ ts ∈ rateAdded store now windowSeconds, ts ≤ now := by
  intro ts hts
  unfold rateAdded at hts
  by_cases hc : (ratePruned store now windowSeconds).contains now
  · rw [if_pos hc] at hts
    exact hle ts (List.mem_filter.mp hts).1
  · rw [if_neg hc] at hts
    cases List.mem_append.mp hts with
    | inl h => exact hle ts (List.mem_filter.mp h).1
    | inr h => exact le_of_eq (List.mem_singleton.mp h)

/-- Helper: now is a member of the set after prune-and-add. -/
theorem rateAdded_mem_now (store : List Int) (now windowSeconds : Int) :
    now ∈ rateAdded store now windowSeconds := by
  unfold rateAdded
  by_cases hc : (ratePruned store now windowSeconds).contains now
  · rw [if_pos hc]
    simpa using hc
  · rw [if_neg hc]
    exact List.mem_append.mpr (Or.inr (List.mem_singleton.mpr rfl))

/-- Helper: prune-and-add preserves freedom from duplicates. -/
theorem rateAdded_nodup (store : List Int) (now windowSeconds : Int)
    (hnodup : store.Nodup) : (rateAdded store now windowSeconds).Nodup := by
  have hpr : (ratePruned store now windowSeconds).Nodup :=
    List.Nodup.filter _ hnodup
  unfold rateAdded
  by_cases hc : (ratePruned store now windowSeconds).contains now
  · rw [if_pos hc]
    exact hpr
  · rw [if_neg hc]
    have hnm : now ∉ ratePruned store now windowSeconds := by
      intro hmem
      exact hc (by simpa using hmem)
    simp [List.nodup_append, hpr, hnm]

/-- C7: `check_rate_limit` removes the entries older than the window,
inserts the current timestamp, reads the in-window count and sets the key
TTL to window + 10 seconds; a request bringing the count to exactly the
limit is allowed, while one bringing it above the limit is denied with
`retry_after = window - (now - oldest) + 1`, which lies between 1 and
window. Hypotheses: the set holds distinct past timestamps (unix seconds
are nonnegative and not in the future) and limit and window are positive. -/
theorem check_rate_limit_spec
    (store : List Int) (now : Int) (limit : Nat) (windowSeconds : Int)
    (hnodup : store.Nodup)
    (hnonneg : ∀ ts ∈ store, 0 ≤ ts)
    (hle : ∀ ts ∈ store, ts ≤ now)
    (hlim : 1 ≤ limit) (hwin : 0 < windowSeconds) :
    (checkRateLimit store now limit windowSeconds).2.2 =
      windowSeconds + 10 ∧
    now ∈ (checkRateLimit store now limit windowSeconds).2.1 ∧
    (∀ ts ∈ (checkRateLimit store now limit windowSeconds).2.1,
      now - windowSeconds < ts) ∧
    ((checkRateLimit store now limit windowSeconds).1.2.1 = limit →
      (checkRateLimit store now limit windowSeconds).1.1 = true) ∧
    ((checkRateLimit store now limit windowSeconds).1.2.1 > limit →
      (checkRateLimit store now limit windowSeconds).1.1 = false ∧
      (checkRateLimit store now limit windowSeconds).1.2.2 =
        windowSeconds -
          (now - listMin (checkRateLimit store now limit
            windowSeconds).2.1) + 1 ∧
      1 ≤ (checkRateLimit store now limit windowSeconds).1.2.2 ∧
      (checkRateLimit store now limit windowSeconds).1.2.2 ≤
        windowSeconds) := by
  have heval : checkRateLimit store now limit windowSeconds =
      (if (rateAdded store now windowSeconds).length > limit then
         ((false, (rateAdded store now windowSeconds).length,
           windowSeconds -
             (now - listMin (rateAdded store now windowSeconds)) + 1),
          rateAdded store now windowSeconds, windowSeconds + 10)
       else
         ((true, (rateAdded store now windowSeconds).length, 0),
          rateAdded store now windowSeconds, windowSeconds + 10)) := rfl
  have hmemnow : now ∈ rateAdded store now windowSeconds :=
    rateAdded_mem_now store now windowSeconds
  have hAne : rateAdded store now windowSeconds ≠ [] := by
    intro h0
    rw [h0] at hmemnow
    cases hmemnow
  have hyoung := rateAdded_young store now windowSeconds hnonneg hwin
  have hlenow := rateAdded_le_now store now windowSeconds hle
  by_cases hcount : (rateAdded store now windowSeconds).length > limit
  · rw [heval, if_pos hcount]
    dsimp only
    refine ⟨rfl, hmemnow, hyoung, ?_, ?_⟩
    · intro h
      omega
    · intro _
      have hmin_mem : listMin (rateAdded store now windowSeconds) ∈
          rateAdded store now windowSeconds :=
        listMin_mem (rateAdded store now windowSeconds) hAne
      have hmy := hyoung (listMin (rateAdded store now windowSeconds))
        hmin_mem
      have hmle := hlenow (listMin (rateAdded store now windowSeconds))
        hmin_mem
      have hmlt : listMin (rateAdded store now windowSeconds) < now := by
        rcases lt_or_eq_of_le hmle with hlt | heq
        · exact hlt
        · exfalso
          have hall : ∀ y ∈ rateAdded store now windowSeconds, y = now :=
            fun y hy =>
              le_antisymm (hlenow y hy)
                (heq ▸ listMin_le (rateAdded store now windowSeconds) y hy)
          have hshort := nodupAllEqShort (rateAdded store now windowSeconds)
            now (rateAdded_nodup store now windowSeconds hnodup) hall
          omega
      refine ⟨rfl, rfl, ?_, ?_⟩
      · omega
      · omega
  · rw [heval, if_neg hcount]
    dsimp only
    refine ⟨rfl, hmemnow, hyoung, ?_, ?_⟩
    · intro _
      rfl
    · intro h
      exact absurd h hcount

/-- Closed instance of C7: with limit 1 and window 60, a third in-window
request is denied with retry_after inside [1, 60]. -/
theorem check_rate_limit_spec_w :
    (checkRateLimit [5, 20] 30 1 60).1.1 = false ∧
    1 ≤ (checkRateLimit [5, 20] 30 1 60).1.2.2 ∧
    (checkRateLimit [5, 20] 30 1 60).1.2.2 ≤ 60 := by
  have h := check_rate_limit_spec [5, 20] 30 1 60
    (by decide) (by decide) (by decide) (by decide) (by decide)
  have hd := h.2.2.2.2 (by decide)
  exact ⟨hd.1, hd.2.2.1, hd.2.2.2⟩

/- ## Circuit breaker (src/backend/services/circuit_breaker.py) -/

/-- Circuit states, mirroring `CircuitState` (`opened` stands for OPEN). -/
inductive CircuitSt
  | closed
  | opened
  | halfOpen
deriving Repr, DecidableEq

/-- Mirrors the dataclass `CircuitBreaker`: configuration plus mutable
state, with the source defaults. -/
structure CircuitBreaker where
  name : String
  failureThreshold : Nat := 5
  resetTimeoutSeconds : Int := 30
  halfOpenMaxCalls : Nat := 1
  state : CircuitSt := .closed
  failureCount : Nat := 0
  lastFailureTime : Option Int := none
  halfOpenCalls : Nat := 0
deriving Repr, DecidableEq

/-- Mirrors `_get_state`: an OPEN circuit whose reset window has elapsed
since the last failure moves to HALF_OPEN with the probe counter reset. -/
def CircuitBreaker.getState (cb : CircuitBreaker) (now : Int) :
    CircuitSt × CircuitBreaker :=
  match cb.state, cb.lastFailureTime with
  | .opened, some tf =>
      if now - tf ≥ cb.resetTimeoutSeconds then
        (.halfOpen, { cb with state := .halfOpen, halfOpenCalls := 0 })
      else (.opened, cb)
  | s, _ => (s, cb)

/-- Mirrors `is_available`: CLOSED passes, HALF_OPEN admits at most
`half_open_max_calls` probes, OPEN rejects. -/
def CircuitBreaker.isAvailable (cb : CircuitBreaker) (now : Int) :
    Bool × CircuitBreaker :=
  match cb.getState now with
  | (.closed, cb1) => (true, cb1)
  | (.halfOpen, cb1) =>
      if cb1.halfOpenCalls < cb1.halfOpenMaxCalls then
        (true, { cb1 with halfOpenCalls := cb1.halfOpenCalls + 1 })
      else (false, cb1)
  | (.opened, cb1) => (false, cb1)

/-- Mirrors `record_success`: HALF_OPEN closes; the failure count is always
reset to zero. -/
def CircuitBreaker.recordSuccess (cb : CircuitBreaker) : CircuitBreaker :=
  if cb.state = .halfOpen then
    { cb with state := .closed, failureCount := 0 }
  else { cb with failureCount := 0 }

/-- Mirrors `record_failure`: increment the count and stamp the failure
time; HALF_OPEN reverts to OPEN, and reaching the threshold opens the
circuit. -/
def CircuitBreaker.recordFailure (cb : CircuitBreaker) (now : Int) :
    CircuitBreaker :=
  let cb1 := { cb with failureCount := cb.failureCount + 1,
                       lastFailureTime := some now }
  if cb1.state = .halfOpen then { cb1 with state := .opened }
  else if cb1.failureCount ≥ cb1.failureThreshold then
    { cb1 with state := .opened }
  else cb1

/-- C8: with the defaults (threshold 5, reset 30 s, one probe), a CLOSED
circuit whose fifth failure is recorded at t0 becomes OPEN with the failure
time stamped; an OPEN circuit rejects every call while fewer than 30 s have
elapsed since the last failure; once 30 s have elapsed the first call is
admitted as the single HALF_OPEN probe and a second call in HALF_OPEN is
rejected; a failure recorded in HALF_OPEN reverts to OPEN; a success
recorded in HALF_OPEN closes the circuit; and every recorded success resets
the failure count to zero. -/
theorem circuit_breaker_lifecycle (cb : CircuitBreaker) (t0 now : Int)
    (hthresh : cb.failureThreshold = 5)
    (hreset : cb.resetTimeoutSeconds = 30)
    (hmax : cb.halfOpenMaxCalls = 1) :
    (cb.state = .closed → cb.failureCount + 1 ≥ 5 →
      (cb.recordFailure t0).state = .opened ∧
      (cb.recordFailure t0).lastFailureTime = some t0) ∧
    (cb.state = .opened → cb.lastFailureTime = some t0 → now - t0 < 30 →
      (cb.isAvailable now).1 = false) ∧
    (cb.state = .opened → cb.lastFailureTime = some t0 → now - t0 ≥ 30 →
      (cb.isAvailable now).1 = true ∧
      (cb.isAvailable now).2.state = .halfOpen ∧
      (cb.isAvailable now).2.halfOpenCalls = 1 ∧
      ((cb.isAvailable now).2.isAvailable now).1 = false) ∧
    (cb.state = .halfOpen → (cb.recordFailure now).state = .opened) ∧
    (cb.state = .halfOpen → cb.recordSuccess.state = .closed) ∧
    cb.recordSuccess.failureCount = 0 := by
  refine ⟨?_, ?_, ?_, ?_, ?_, ?_⟩
  · intro hst hcnt
    unfold CircuitBreaker.recordFailure
    simp only [hst, hthresh]
    have hge : cb.failureCount + 1 ≥ 5 := hcnt
    constructor
    · simp [hge]
    · simp [hge]
  · intro hst hlast hlt
    unfold CircuitBreaker.isAvailable CircuitBreaker.getState
    simp only [hst, hlast, hreset]
    have : ¬ (now - t0 ≥ 30) := by omega
    simp [this]
  · intro hst hlast hge
    have hget : cb.getState now =
        (.halfOpen, { cb with state := .halfOpen, halfOpenCalls := 0 }) := by
      unfold CircuitBreaker.getState
      simp only [hst, hlast, hreset]
      simp [hge]
    have hav : cb.isAvailable now =
        (true, { cb with state := .halfOpen, halfOpenCalls := 1 }) := by
      unfold CircuitBreaker.isAvailable
      rw [hget]
      simp [hmax]
    refine ⟨by rw [hav], by rw [hav], by rw [hav], ?_⟩
    rw [hav]
    unfold CircuitBreaker.isAvailable CircuitBreaker.getState
    simp [hmax]
  · intro hst
    unfold CircuitBreaker.recordFailure
    simp [hst]
  · intro hst
    unfold CircuitBreaker.recordSuccess
    simp [hst]
  · unfold CircuitBreaker.recordSuccess
    by_cases hst : cb.state = .halfOpen
    · simp [hst]
    · simp [hst]

/-- Closed instance of C8: the fifth failure at time 0 opens the circuit,
which rejects at 29 s and admits a single probe at 30 s. -/
theorem circuit_breaker_lifecycle_w :
    (({ name := "db", state := .closed, failureCount := 4,
        lastFailureTime := some 0 } : CircuitBreaker).recordFailure 0).state
      = .opened ∧
    (({ name := "db", state := .opened, failureCount := 5,
        lastFailureTime := some 0 } : CircuitBreaker).isAvailable 29).1
      = false ∧
    (({ name := "db", state := .opened, failureCount := 5,
        lastFailureTime := some 0 } : CircuitBreaker).isAvailable 30).1
      = true := by
  refine ⟨?_, ?_, ?_⟩
  · exact ((circuit_breaker_lifecycle
      { name := "db", state := .closed, failureCount := 4,
        lastFailureTime := some 0 } 0 0 (by decide) (by decide)
      (by decide)).1 (by decide) (by decide)).1
  · exact (circuit_breaker_lifecycle
      { name := "db", state := .opened, failureCount := 5,
        lastFailureTime := some 0 } 0 29 (by decide) (by decide)
      (by decide)).2.1 (by decide) (by decide) (by decide)
  · exact ((circuit_breaker_lifecycle
      { name := "db", state := .opened, failureCount := 5,
        lastFailureTime := some 0 } 0 30 (by decide) (by decide)
      (by decide)).2.2.1 (by decide) (by decide) (by decide)).1
